import Mathlib

/-!
Verification of the playwright-rpa scripts: a shallow embedding of the
site health check (scripts/02-site-health-check.ts), the price monitor
and its CSV writer, and the shared webhook notifier (utils/notify), with
theorems about the properties the specification states.

JavaScript numbers are modelled as `Option ℚ`, with `none` playing the
role of `NaN`; comparisons against `NaN` are false, as in JavaScript.
Effects (console logs, HTTP requests, CSV rows) are made explicit as
data returned by the embedded functions, and the outcome of each
external browser/network operation is an input to the model.
-/

namespace PlaywrightRpa

/-- A JavaScript number: `none` stands for `NaN`. -/
abbrev JSNum := Option ℚ

/-- JavaScript `a > b`: false whenever either side is `NaN`. -/
def jsGt (a b : JSNum) : Bool :=
  match a, b with
  | some x, some y => decide (y < x)
  | _, _ => false

/-- JavaScript `a <= b`: false whenever either side is `NaN`. -/
def jsLe (a b : JSNum) : Bool :=
  match a, b with
  | some x, some y => decide (x ≤ y)
  | _, _ => false

/-- Digits of a decimal literal folded into a natural number. -/
def digitsToNat (cs : List Char) : Nat :=
  cs.foldl (fun n c => 10 * n + (c.toNat - 48)) 0

/-- Value of an integer part together with a fractional digit string. -/
def decimalValue (intPart fracPart : List Char) : ℚ :=
  (digitsToNat intPart : ℚ) + (digitsToNat fracPart : ℚ) / (10 : ℚ) ^ fracPart.length

/-- JavaScript `parseFloat` restricted to strings of digits and dots: reads the
longest prefix of the form `digits [. digits]` and ignores the rest; yields
`NaN` when no digit is readable.  This is all `parsePrice` needs, since it
first strips every character other than digits and dots. -/
def parseFloatPrefix (cs : List Char) : JSNum :=
  let intPart := cs.takeWhile Char.isDigit
  let rest := cs.dropWhile Char.isDigit
  match rest with
  | '.' :: rest2 =>
      let fracPart := rest2.takeWhile Char.isDigit
      if intPart = [] ∧ fracPart = [] then none
      else some (decimalValue intPart fracPart)
  | _ => if intPart = [] then none else some (digitsToNat intPart)

/-- Leading and trailing whitespace removed, as JavaScript `trim`. -/
def jsTrim (s : String) : String :=
  String.mk (((s.data.dropWhile Char.isWhitespace).reverse.dropWhile
    Char.isWhitespace).reverse)

/-- JavaScript `Number(s)` on a string, restricted to plain decimal literals:
the trimmed string must be empty (value 0) or an optionally signed decimal
`digits [. digits]` with at least one digit; anything else (hex, exponents,
`Infinity`) is out of the modelled fragment and yields `NaN`. -/
def jsNumber (s : String) : JSNum :=
  let t := (jsTrim s).data
  if t = [] then some 0
  else
    match t with
    | '+' :: rest => jsNumberBody rest
    | '-' :: rest => (jsNumberBody rest).map (fun q => -q)
    | _ => jsNumberBody t
where
  /-- An unsigned decimal literal that must span the whole string. -/
  jsNumberBody (cs : List Char) : JSNum :=
    let intPart := cs.takeWhile Char.isDigit
    let rest := cs.dropWhile Char.isDigit
    match rest with
    | [] => if intPart = [] then none else some (digitsToNat intPart)
    | '.' :: rest2 =>
        if rest2.all Char.isDigit ∧ ¬(intPart = [] ∧ rest2 = []) then
          some (decimalValue intPart rest2)
        else none
    | _ => none

-- ── Site health check (scripts/02-site-health-check.ts) ──

/-- Classification of one health-check result: `ok`, `slow` or `error`. -/
inductive HStatus where
  | ok
  | slow
  | error
deriving DecidableEq, Repr

/-- One record of `results/health-report.json` (interface `HealthResult`). -/
structure HealthResult where
  url : String
  status : HStatus
  httpStatus : Option Int
  responseTimeMs : JSNum
  errorMessage : Option String
  screenshotFile : Option String
  checkedAt : String
deriving DecidableEq, Repr

/-- `RESPONSE_TIME_THRESHOLD = Number(process.env.RESPONSE_TIME_THRESHOLD ?? 5000)`:
when the variable is absent, `Number` is applied to the number 5000 itself;
when present, the string is converted with `Number`. -/
def RESPONSE_TIME_THRESHOLD (env : Option String) : JSNum :=
  match env with
  | none => some 5000
  | some s => jsNumber s

/-- The status decision of the health check (lines 98-101 of the script):
`isOk` when the HTTP status is non-null and in `[200, 400)`, `isSlow` when
additionally the response time exceeds the threshold strictly, and the
resulting status is `error` / `slow` / `ok` accordingly. -/
def statusOf (threshold : JSNum) (httpStatus : Option Int) (responseTimeMs : ℚ) :
    HStatus :=
  let isOk :=
    match httpStatus with
    | some s => decide (200 ≤ s) && decide (s < 400)
    | none => false
  let isSlow := isOk && jsGt (some responseTimeMs) threshold
  if !isOk then .error else if isSlow then .slow else .ok

/-- What the external browser operations did for one target: the navigation
threw (`gotoFails`, with the best-effort error screenshot result), the
navigation succeeded but the screenshot threw (`screenshotFails`), or
everything succeeded (`succeeds`).  The navigation response's status may be
null, as `response?.status() ?? null` allows. -/
inductive CheckOutcome where
  | gotoFails (errMsg : String) (errorShot : Option String)
  | screenshotFails (httpStatus : Option Int) (responseTimeMs : ℚ)
      (errMsg : String) (errorShot : Option String)
  | succeeds (httpStatus : Option Int) (responseTimeMs : ℚ) (shotFile : String)

/-- The body of the per-target `try`/`catch` of the health check: a success
pushes a record classified by `statusOf`; any throw is caught and pushed as a
`status: "error"` record carrying whatever `httpStatus` / `responseTimeMs`
had been assigned before the throw, the error message, and the best-effort
error screenshot. -/
def checkTarget (threshold : JSNum) (checkedAt url : String) :
    CheckOutcome → HealthResult
  | .gotoFails msg shot =>
      { url := url, status := .error, httpStatus := none, responseTimeMs := none
        errorMessage := some msg, screenshotFile := shot, checkedAt := checkedAt }
  | .screenshotFails hs rt msg shot =>
      { url := url, status := .error, httpStatus := hs, responseTimeMs := some rt
        errorMessage := some msg, screenshotFile := shot, checkedAt := checkedAt }
  | .succeeds hs rt file =>
      { url := url, status := statusOf threshold hs rt, httpStatus := hs
        responseTimeMs := some rt, errorMessage := none
        screenshotFile := some file, checkedAt := checkedAt }

/-- The sequential `for (const url of targetUrls)` loop: one record is pushed
per target, in input order, whatever each target's outcome is.  `checkedAt`
is the timestamp string computed once before the loop. -/
def runHealthChecks (threshold : JSNum) (checkedAt : String) :
    List (String × CheckOutcome) → List HealthResult
  | [] => []
  | (url, o) :: rest =>
      checkTarget threshold checkedAt url o :: runHealthChecks threshold checkedAt rest

/-- The exit decision after the loop (lines 171-174): `process.exit(1)` when
`errorCount > 0`, otherwise the script runs to completion and the process
exits 0. -/
def healthExitCode (results : List HealthResult) : Nat :=
  let errorCount := (results.filter (fun r => r.status == HStatus.error)).length
  if errorCount > 0 then 1 else 0

-- ── Price monitor (price monitor script) ──

/-- `parsePrice`: strip every character other than digits and dots, then
`parseFloat`; `NaN` becomes null (`none`). -/
def parsePrice (raw : String) : Option ℚ :=
  let cleaned := raw.data.filter (fun c => c.isDigit || c = '.')
  parseFloatPrefix cleaned

/-- `PRICE_THRESHOLD`: null when the variable is absent, otherwise the string
converted with `Number` (so a JavaScript number, possibly `NaN`). -/
def PRICE_THRESHOLD (env : Option String) : Option JSNum :=
  match env with
  | none => none
  | some s => some (jsNumber s)

/-- The threshold test of line 110 of the price monitor:
`price !== null && PRICE_THRESHOLD !== null && price <= PRICE_THRESHOLD`. -/
def priceAlertCheck (price : Option ℚ) (threshold : Option JSNum) : Bool :=
  match price, threshold with
  | some p, some t => jsLe (some p) t
  | _, _ => false

/-- JavaScript `String(n)` on a number, for the CSV price column: exact for
integral values (the only values the claims evaluate it at); a non-integral
rational is rendered through its Lean representation. -/
def jsNumToString (q : ℚ) : String :=
  if q.den = 1 then toString q.num else toString q

/-- What the browser produced for one price-monitor target: any throw in the
`try` block (navigation, extraction or screenshot) is a `failure`; otherwise
`scraped` carries the optional name element's `textContent` and the optional
price element's `textContent` (each element may be missing, and a found
element's text may itself be null). -/
inductive PriceOutcome where
  | failure (errMsg : String)
  | scraped (nameText : Option (Option String)) (priceText : Option (Option String))

/-- The product name: `(nameEl ? (await nameEl.textContent()) ?? "" : "不明").trim()`. -/
def scrapedName (nameText : Option (Option String)) : String :=
  jsTrim (match nameText with
    | some t => t.getD ""
    | none => "不明")

/-- The parsed price: `parsePrice(((priceEl ? tc ?? "" : "")).trim())`. -/
def scrapedPrice (priceText : Option (Option String)) : Option ℚ :=
  parsePrice (jsTrim (match priceText with
    | some t => t.getD ""
    | none => ""))

/-- An entry of `alertItems`. -/
structure AlertItem where
  name : String
  price : ℚ
  url : String
deriving DecidableEq, Repr

/-- One iteration of the price-monitor loop: the CSV row appended for this
target and the alert item pushed, if any.  A throw is caught and recorded as
the row `[timestamp, url, "ERROR", "N/A"]` with no alert. -/
def priceStep (timestamp url : String) (threshold : Option JSNum) :
    PriceOutcome → List String × Option AlertItem
  | .failure _ => ([timestamp, url, "ERROR", "N/A"], none)
  | .scraped nameText priceText =>
      let name := scrapedName nameText
      let price := scrapedPrice priceText
      let row := [timestamp, url, name,
        match price with
        | some p => jsNumToString p
        | none => "N/A"]
      let alert :=
        if priceAlertCheck price threshold then
          match price with
          | some p => some { name := name, price := p, url := url }
          | none => none
        else none
      (row, alert)

/-- The sequential price-monitor loop: CSV rows in input order and the
accumulated alert items. -/
def priceMonitorLoop (timestamp : String) (threshold : Option JSNum) :
    List (String × PriceOutcome) → List (List String) × List AlertItem
  | [] => ([], [])
  | (url, o) :: rest =>
      let step := priceStep timestamp url threshold o
      let tail := priceMonitorLoop timestamp threshold rest
      (step.1 :: tail.1,
        match step.2 with
        | some a => a :: tail.2
        | none => tail.2)

/-- A whole price-monitor run.  The script contains no `process.exit` call:
after the loop it sends a notification and ends normally, so the process
exit code is 0 whatever the per-target outcomes were. -/
structure PriceRun where
  csvRows : List (List String)
  alerts : List AlertItem
  exitCode : Nat
deriving DecidableEq, Repr

/-- Run the price monitor over a list of targets. -/
def priceMonitorRun (timestamp : String) (threshold : Option JSNum)
    (targets : List (String × PriceOutcome)) : PriceRun :=
  let looped := priceMonitorLoop timestamp threshold targets
  { csvRows := looped.1, alerts := looped.2, exitCode := 0 }

-- ── CSV writer (`appendCsv`) and a standard CSV reader ──

/-- `v.replace(/"/g, a double quote twice)`: double every double quote. -/
def escapeQuotes : List Char → List Char
  | [] => []
  | c :: rest =>
      if c = '"' then '"' :: '"' :: escapeQuotes rest
      else c :: escapeQuotes rest

/-- One CSV field as `appendCsv` writes it: the escaped value wrapped in
double quotes. -/
def renderField (v : List Char) : List Char :=
  '"' :: (escapeQuotes v ++ ['"'])

/-- JavaScript `Array.join(",")` at the character level. -/
def joinComma : List (List Char) → List Char
  | [] => []
  | [x] => x
  | x :: xs => x ++ ',' :: joinComma xs

/-- The line `appendCsv` appends:
`row.map((v) => quoted-escaped v).join(",") + newline`, at the character
level. -/
def csvLineChars (row : List (List Char)) : List Char :=
  joinComma (row.map renderField) ++ ['\n']

/-- The line `appendCsv` appends, as a string. -/
def csvLine (row : List String) : String :=
  String.mk (csvLineChars (row.map String.data))

/-- Standard CSV reader, quoted-field mode: the input starts right after an
opening double quote; a doubled double quote is a literal one, a single
double quote closes the field.  Returns the field value and the remaining
input, or `none` for an unterminated field. -/
def parseQuotedField : List Char → Option (List Char × List Char)
  | [] => none
  | c :: rest =>
      if c = '"' then
        match rest with
        | [] => some ([], [])
        | c2 :: rest2 =>
            if c2 = '"' then
              (parseQuotedField rest2).map (fun p => ('"' :: p.1, p.2))
            else some ([], c2 :: rest2)
      else (parseQuotedField rest).map (fun p => (c :: p.1, p.2))

/-- Standard CSV reader, one field: a field opening with a double quote is
read in quoted mode, any other field extends to the next comma or line
break. -/
def parseRawField (l : List Char) : Option (List Char × List Char) :=
  match l with
  | '"' :: rest => parseQuotedField rest
  | _ => some (l.takeWhile (fun c => !(c = ',' || c = '\n')),
               l.dropWhile (fun c => !(c = ',' || c = '\n')))

/-- Standard CSV reader, the fields of one record: fields separated by
commas until the input is exhausted.  The fuel bounds the number of fields;
`length + 1` always suffices since every field but the last is followed by a
comma. -/
def parseFieldListAux : Nat → List Char → Option (List (List Char))
  | 0, _ => none
  | fuel + 1, l =>
      match parseRawField l with
      | none => none
      | some (v, rest) =>
          match rest with
          | [] => some [v]
          | c :: rest2 =>
              if c = ',' then
                (parseFieldListAux fuel rest2).map (fun vs => v :: vs)
              else none

/-- Standard CSV reader, one record: an optional trailing line break is
dropped; a blank line carries no fields, any other line is split into
fields. -/
def parseCsvRecord (s : String) : Option (List String) :=
  let cs := s.data
  let body := if cs.getLast? = some '\n' then cs.dropLast else cs
  if body = [] then some []
  else (parseFieldListAux (body.length + 1) body).map
    (fun vs => vs.map (fun v => String.mk v))

-- ── Notifier (utils/notify) ──

/-- `NotifyStatus`: the three severities. -/
inductive NotifyStatus where
  | success
  | failure
  | warning
deriving DecidableEq, Repr

/-- `NotifyPayload`: title, message, severity, optional detail mapping
(values already stringified, as `String(v)` renders the `string | number`
union). -/
structure NotifyPayload where
  title : String
  message : String
  status : NotifyStatus
  details : Option (List (String × String))
deriving DecidableEq, Repr

/-- The severity-to-color map of `notify`. -/
def statusColor : NotifyStatus → String
  | .success => "#36a64f"
  | .failure => "#ff0000"
  | .warning => "#ffa500"

/-- The severity-to-glyph map of `notify`. -/
def statusEmoji : NotifyStatus → String
  | .success => "✅"
  | .failure => "❌"
  | .warning => "⚠️"

/-- The bullet-line rendering of the detail mapping. -/
def detailsText (d : Option (List (String × String))) : String :=
  match d with
  | none => ""
  | some entries =>
      String.intercalate "\n" (entries.map (fun kv => "• " ++ kv.1 ++ ": " ++ kv.2))

/-- The message body: the detail lines are appended when the rendered detail
text is non-empty (the JavaScript truthiness test on the string). -/
def fullMessage (p : NotifyPayload) : String :=
  let dt := detailsText p.details
  if dt = "" then p.message else p.message ++ "\n" ++ dt

/-- What one webhook endpoint did with the POST: answered with a status code
(possibly absent on the response object), or the request errored at the
network level. -/
inductive WebhookResponse where
  | status (code : Option Nat)
  | netError (errMsg : String)
deriving DecidableEq, Repr

/-- Render of a possibly-undefined status code inside the failure message. -/
def statusCodeText : Option Nat → String
  | some c => toString c
  | none => "undefined"

/-- `postWebhook`: the promise resolves exactly when a status code is present
and in `[200, 300)`; any other response, and any network error, rejects. -/
def postWebhook (url : String) (resp : WebhookResponse) : Except String Unit :=
  match resp with
  | .status code =>
      match code with
      | some c =>
          if 200 ≤ c ∧ c < 300 then Except.ok ()
          else Except.error
            ("Webhook に失敗しました: HTTP " ++ statusCodeText (some c) ++ " (" ++ url ++ ")")
      | none => Except.error
          ("Webhook に失敗しました: HTTP " ++ statusCodeText none ++ " (" ++ url ++ ")")
  | .netError msg => Except.error msg

/-- The two webhook backends. -/
inductive Backend where
  | slack
  | discord
deriving DecidableEq, Repr

/-- The environment `notify` runs in: the two independently optional webhook
URLs, and what each endpoint would do with a POST. -/
structure NotifyEnv where
  slackUrl : Option String
  discordUrl : Option String
  slackResponse : WebhookResponse
  discordResponse : WebhookResponse
deriving DecidableEq, Repr

/-- The settlement record `Promise.allSettled` produces for one promise. -/
inductive Settled where
  | fulfilled
  | rejected (reason : String)
deriving DecidableEq, Repr

/-- The settlement of one promise outcome. -/
def settle : Except String Unit → Settled
  | .ok _ => .fulfilled
  | .error e => .rejected e

/-- `Promise.allSettled`: a promise that always fulfills, with one settlement
record per input promise, in order. -/
def promiseAllSettled (l : List (Except String Unit)) : List Settled :=
  l.map settle

/-- The `promises` array `notify` builds: one started `postWebhook` dispatch
per configured backend — Slack first, then Discord. -/
def notifyDispatches (env : NotifyEnv) : List (Backend × Except String Unit) :=
  (match env.slackUrl with
    | some url => [(Backend.slack, postWebhook url env.slackResponse)]
    | none => []) ++
  (match env.discordUrl with
    | some url => [(Backend.discord, postWebhook url env.discordResponse)]
    | none => [])

/-- The observable effects of one `notify` call: which backends were POSTed
to, the console lines written, and the settlement records collected. -/
structure NotifyEffects where
  requests : List Backend
  logs : List String
  settled : List Settled
deriving DecidableEq, Repr

/-- `notify`: with no configured backend it writes the skip line and the
summary line to the console and returns; otherwise it awaits
`Promise.allSettled` over the started dispatches.  The `Except` result is
the promise `notify` itself returns: `error` would mean a rejection
surfacing to the caller. -/
def notify (env : NotifyEnv) (payload : NotifyPayload) :
    Except String NotifyEffects :=
  let promises := notifyDispatches env
  if promises.length = 0 then
    Except.ok
      { requests := []
        logs := ["[notify] Webhook URL が設定されていません。通知をスキップします。",
                 "[notify] " ++ statusEmoji payload.status ++ " " ++ payload.title
                   ++ ": " ++ payload.message]
        settled := [] }
  else
    Except.ok
      { requests := promises.map Prod.fst
        logs := []
        settled := promiseAllSettled (promises.map Prod.snd) }

-- ── Shared lemmas ──

/-- The health-check loop distributes over list append. -/
theorem runHealthChecks_append (threshold : JSNum) (checkedAt : String)
    (l1 l2 : List (String × CheckOutcome)) :
    runHealthChecks threshold checkedAt (l1 ++ l2) =
      runHealthChecks threshold checkedAt l1 ++ runHealthChecks threshold checkedAt l2 := by
  induction l1 with
  | nil => rfl
  | cons t rest ih =>
      obtain ⟨url, o⟩ := t
      simp [runHealthChecks, ih]

-- ── Claims ──

/-- C1: the health-check loop produces exactly one CheckResult per target, in
input order, and a target whose navigation throws is recorded as a
status-error record while every subsequent target is still processed. -/
theorem health_one_record_per_target (threshold : JSNum) (checkedAt : String)
    (targets : List (String × CheckOutcome)) :
    (runHealthChecks threshold checkedAt targets).length = targets.length ∧
    (runHealthChecks threshold checkedAt targets).map HealthResult.url
      = targets.map Prod.fst ∧
    ∀ pre url msg shot post,
      runHealthChecks threshold checkedAt
          (pre ++ (url, CheckOutcome.gotoFails msg shot) :: post) =
        runHealthChecks threshold checkedAt pre ++
          checkTarget threshold checkedAt url (CheckOutcome.gotoFails msg shot) ::
            runHealthChecks threshold checkedAt post ∧
      (checkTarget threshold checkedAt url (CheckOutcome.gotoFails msg shot)).status
        = HStatus.error := by
  refine ⟨?_, ?_, ?_⟩
  · induction targets with
    | nil => rfl
    | cons t rest ih =>
        obtain ⟨url, o⟩ := t
        simp [runHealthChecks, ih]
  · induction targets with
    | nil => rfl
    | cons t rest ih =>
        obtain ⟨url, o⟩ := t
        cases o <;> simp [runHealthChecks, checkTarget, ih]
  · intro pre url msg shot post
    refine ⟨?_, rfl⟩
    rw [runHealthChecks_append]
    rfl

/-- C2: with an OK-range HTTP status, a response time exactly equal to the
configured threshold classifies as ok, and one unit above classifies as slow
(the slow comparison is strictly greater-than). -/
theorem statusOf_threshold_boundary (t : ℚ) (s : Int)
    (h1 : 200 ≤ s) (h2 : s < 400) :
    statusOf (some t) (some s) t = HStatus.ok ∧
    statusOf (some t) (some s) (t + 1) = HStatus.slow := by
  constructor
  · simp [statusOf, jsGt, h1, h2]
  · simp [statusOf, jsGt, h1, h2]

/-- Witness for C2 at threshold 5000 and HTTP status 250. -/
theorem statusOf_threshold_boundary_witness :
    (200 ≤ (250 : Int)) ∧ ((250 : Int) < 400) ∧
    statusOf (some 5000) (some 250) 5000 = HStatus.ok ∧
    statusOf (some 5000) (some 250) (5000 + 1) = HStatus.slow := by
  refine ⟨by decide, by decide, ?_, ?_⟩
  · exact (statusOf_threshold_boundary 5000 250 (by decide) (by decide)).1
  · exact (statusOf_threshold_boundary 5000 250 (by decide) (by decide)).2

/-- C7 counterexample: a target whose navigation succeeds with HTTP status
301 — a non-2xx status — is classified ok, not error, because the code
treats the whole range 200-399 as ok. -/
theorem health_non2xx_counterexample :
    (checkTarget (some 5000) "2025/1/1 0:00:00" "https://example.com"
        (CheckOutcome.succeeds (some 301) 120 "shot.png")).status = HStatus.ok := by
  decide

/-- C7 amended: a target whose navigation succeeds with an HTTP status
outside the ok range 200-399 is recorded with status error, and the loop
still processes the remaining targets. -/
theorem health_non_ok_range_is_error (threshold : JSNum) (checkedAt url : String)
    (s : Int) (rt : ℚ) (file : String) (h : s < 200 ∨ 400 ≤ s) :
    (checkTarget threshold checkedAt url
        (CheckOutcome.succeeds (some s) rt file)).status = HStatus.error ∧
    ∀ rest, runHealthChecks threshold checkedAt
        ((url, CheckOutcome.succeeds (some s) rt file) :: rest) =
      checkTarget threshold checkedAt url (CheckOutcome.succeeds (some s) rt file) ::
        runHealthChecks threshold checkedAt rest := by
  have hOk : (decide (200 ≤ s) && decide (s < 400)) = false := by
    rcases h with h | h <;> simp <;> omega
  exact ⟨by simp [checkTarget, statusOf, hOk], fun rest => rfl⟩

/-- Witness for C7 amended at HTTP status 500. -/
theorem health_non_ok_range_is_error_witness :
    ((500 : Int) < 200 ∨ 400 ≤ (500 : Int)) ∧
    (checkTarget (some 5000) "2025/1/1 0:00:00" "https://example.com"
        (CheckOutcome.succeeds (some 500) 120 "shot.png")).status = HStatus.error := by
  refine ⟨by decide, ?_⟩
  exact (health_non_ok_range_is_error (some 5000) "2025/1/1 0:00:00"
    "https://example.com" 500 120 "shot.png" (by decide)).1

/-- C8 counterexample: with the configuration string "abc", which does not
parse as a number, the threshold is NaN, not the default 5000. -/
theorem threshold_invalid_counterexample :
    RESPONSE_TIME_THRESHOLD (some "abc") ≠ some 5000 := by
  decide

/-- C8 amended: the default 5000 is used only when the variable is absent; a
present value that does not parse as a number makes the threshold NaN, and
with a NaN threshold no response is ever classified slow. -/
theorem threshold_default_only_when_absent (s : String) (h : jsNumber s = none) :
    RESPONSE_TIME_THRESHOLD none = some 5000 ∧
    RESPONSE_TIME_THRESHOLD (some s) = none ∧
    ∀ hs rt, statusOf (RESPONSE_TIME_THRESHOLD (some s)) hs rt ≠ HStatus.slow := by
  refine ⟨rfl, by simp [RESPONSE_TIME_THRESHOLD, h], ?_⟩
  intro hs rt
  simp only [RESPONSE_TIME_THRESHOLD, h]
  cases hs with
  | none => simp [statusOf, jsGt]
  | some v =>
      simp [statusOf, jsGt]
      split <;> simp

/-- Witness for C8 amended at the string "abc". -/
theorem threshold_default_only_when_absent_witness :
    jsNumber "abc" = none ∧
    RESPONSE_TIME_THRESHOLD none = some 5000 ∧
    RESPONSE_TIME_THRESHOLD (some "abc") = none ∧
    statusOf (RESPONSE_TIME_THRESHOLD (some "abc")) (some 200) 999999
      ≠ HStatus.slow := by
  have h : jsNumber "abc" = none := by decide
  have thm := threshold_default_only_when_absent "abc" h
  exact ⟨h, thm.1, thm.2.1, thm.2.2 (some 200) 999999⟩

/-- C10: every record of one health-check run carries the timestamp string
computed once before the loop. -/
theorem checkedAt_shared_across_run (threshold : JSNum) (c : String)
    (targets : List (String × CheckOutcome)) (r : HealthResult)
    (h : r ∈ runHealthChecks threshold c targets) : r.checkedAt = c := by
  induction targets with
  | nil => simp [runHealthChecks] at h
  | cons t rest ih =>
      obtain ⟨url, o⟩ := t
      rw [runHealthChecks] at h
      rcases List.mem_cons.mp h with h1 | h2
      · subst h1
        cases o <;> rfl
      · exact ih h2

/-- Witness for C10 on a two-target run. -/
theorem checkedAt_shared_across_run_witness :
    (checkTarget (some 5000) "2025/1/1 0:00:00" "https://a.test"
        (CheckOutcome.succeeds (some 200) 120 "a.png")) ∈
      runHealthChecks (some 5000) "2025/1/1 0:00:00"
        [("https://a.test", CheckOutcome.succeeds (some 200) 120 "a.png"),
         ("https://b.test", CheckOutcome.gotoFails "Timeout 30000ms exceeded" none)] ∧
    (checkTarget (some 5000) "2025/1/1 0:00:00" "https://a.test"
        (CheckOutcome.succeeds (some 200) 120 "a.png")).checkedAt
      = "2025/1/1 0:00:00" := by
  have hmem : (checkTarget (some 5000) "2025/1/1 0:00:00" "https://a.test"
      (CheckOutcome.succeeds (some 200) 120 "a.png")) ∈
      runHealthChecks (some 5000) "2025/1/1 0:00:00"
        [("https://a.test", CheckOutcome.succeeds (some 200) 120 "a.png"),
         ("https://b.test", CheckOutcome.gotoFails "Timeout 30000ms exceeded" none)] := by
    simp [runHealthChecks]
  exact ⟨hmem, checkedAt_shared_across_run _ _ _ _ hmem⟩

/-- C3: with a configured numeric price threshold, a successfully parsed
price exactly equal to the threshold is pushed as an alert item (the
comparison is inclusive), and a price strictly above the threshold produces
no alert. -/
theorem price_threshold_inclusive (ts url : String)
    (nt pt : Option (Option String)) (p t : ℚ)
    (hp : scrapedPrice pt = some p) :
    (p = t →
      (priceStep ts url (some (some t)) (PriceOutcome.scraped nt pt)).2
        = some { name := scrapedName nt, price := p, url := url }) ∧
    (t < p →
      (priceStep ts url (some (some t)) (PriceOutcome.scraped nt pt)).2 = none) := by
  constructor
  · intro hpt
    subst hpt
    simp [priceStep, hp, priceAlertCheck, jsLe]
  · intro hlt
    simp [priceStep, hp, priceAlertCheck, jsLe, not_le.mpr hlt]

/-- Witness for C3: the price text "¥1,980" parses to 1980; threshold 1980
yields an alert, threshold 1000 does not. -/
theorem price_threshold_inclusive_witness :
    scrapedPrice (some (some "¥1,980")) = some 1980 ∧
    (priceStep "2025/1/1 0:00:00" "https://shop.example" (some (some 1980))
        (PriceOutcome.scraped (some (some "Item")) (some (some "¥1,980")))).2
      = some { name := scrapedName (some (some "Item")), price := 1980,
               url := "https://shop.example" } ∧
    ((1000 : ℚ) < 1980) ∧
    (priceStep "2025/1/1 0:00:00" "https://shop.example" (some (some 1000))
        (PriceOutcome.scraped (some (some "Item")) (some (some "¥1,980")))).2
      = none := by
  have hp : scrapedPrice (some (some "¥1,980")) = some 1980 := by decide
  exact ⟨hp,
    (price_threshold_inclusive "2025/1/1 0:00:00" "https://shop.example"
      (some (some "Item")) (some (some "¥1,980")) 1980 1980 hp).1 rfl,
    by decide,
    (price_threshold_inclusive "2025/1/1 0:00:00" "https://shop.example"
      (some (some "Item")) (some (some "¥1,980")) 1980 1000 hp).2 (by decide)⟩

/-- C6 counterexample: a price-monitor run in which a target ends in a hard
error (its row is recorded as ERROR) still exits with code 0 — the price
monitor contains no nonzero-exit path for per-target errors. -/
theorem exit_code_counterexample :
    (priceMonitorRun "2025/1/1 0:00:00" none
        [("https://shop.example", PriceOutcome.failure "Timeout 30000ms exceeded")]).csvRows
      = [["2025/1/1 0:00:00", "https://shop.example", "ERROR", "N/A"]] ∧
    (priceMonitorRun "2025/1/1 0:00:00" none
        [("https://shop.example", PriceOutcome.failure "Timeout 30000ms exceeded")]).exitCode
      = 0 := by
  constructor
  · rfl
  · rfl

/-- C6 amended: the health-check script exits with code 0 exactly when no
target ended in error (slow-only runs exit 0) and with code 1 exactly when
some target ended in error; the price monitor exits 0 on every run, even
when targets ended in a hard error state. -/
theorem exit_code_amended (results : List HealthResult) (ts : String)
    (threshold : Option JSNum) (targets : List (String × PriceOutcome)) :
    (healthExitCode results = 0 ↔ ∀ r ∈ results, r.status ≠ HStatus.error) ∧
    (healthExitCode results = 1 ↔ ∃ r ∈ results, r.status = HStatus.error) ∧
    (priceMonitorRun ts threshold targets).exitCode = 0 := by
  refine ⟨?_, ?_, rfl⟩
  · simp [healthExitCode, List.length_eq_zero, List.filter_eq_nil_iff]
  · simp [healthExitCode, List.length_pos, List.filter_eq_nil_iff]

/-- C4: with neither webhook configured, notify returns normally, performs
no POST, and only writes the skip line and the summary line to the console. -/
theorem notify_no_backend (env : NotifyEnv) (payload : NotifyPayload)
    (hs : env.slackUrl = none) (hd : env.discordUrl = none) :
    notify env payload = Except.ok
      { requests := []
        logs := ["[notify] Webhook URL が設定されていません。通知をスキップします。",
                 "[notify] " ++ statusEmoji payload.status ++ " " ++ payload.title
                   ++ ": " ++ payload.message]
        settled := [] } := by
  simp [notify, notifyDispatches, hs, hd]

/-- Witness for C4 on a concrete unconfigured environment. -/
theorem notify_no_backend_witness :
    (NotifyEnv.mk none none (WebhookResponse.status (some 200))
        (WebhookResponse.status (some 200))).slackUrl = none ∧
    (NotifyEnv.mk none none (WebhookResponse.status (some 200))
        (WebhookResponse.status (some 200))).discordUrl = none ∧
    notify (NotifyEnv.mk none none (WebhookResponse.status (some 200))
        (WebhookResponse.status (some 200)))
      (NotifyPayload.mk "価格監視 完了" "1件のURLをチェックしました。" NotifyStatus.success none)
      = Except.ok
        { requests := []
          logs := ["[notify] Webhook URL が設定されていません。通知をスキップします。",
                   "[notify] ✅ 価格監視 完了: 1件のURLをチェックしました。"]
          settled := [] } := by
  refine ⟨rfl, rfl, ?_⟩
  exact notify_no_backend _ _ rfl rfl

/-- C5: notify always fulfills — a backend's non-2xx response or network
error never surfaces to the caller; every configured backend is dispatched
to, and the settlement list records each backend's own outcome
independently of its sibling. -/
theorem notify_error_isolation (env : NotifyEnv) (payload : NotifyPayload) :
    (notify env payload).isOk = true ∧
    (notify env payload).toOption.map NotifyEffects.requests =
      some ((match env.slackUrl with
              | some _ => [Backend.slack]
              | none => []) ++
            (match env.discordUrl with
              | some _ => [Backend.discord]
              | none => [])) ∧
    (notify env payload).toOption.map NotifyEffects.settled =
      some ((match env.slackUrl with
              | some url => [settle (postWebhook url env.slackResponse)]
              | none => []) ++
            (match env.discordUrl with
              | some url => [settle (postWebhook url env.discordResponse)]
              | none => [])) := by
  obtain ⟨su, du, sr, dr⟩ := env
  cases su <;> cases du <;>
    simp [notify, notifyDispatches, promiseAllSettled, Except.isOk, Except.toBool,
      Except.toOption]

/-- Reading a quoted field back undoes the quote escaping, provided the
remaining input does not itself begin with a double quote (in a rendered
record it is empty or begins with a comma). -/
theorem parseQuotedField_escapeQuotes (v rest : List Char)
    (hrest : rest.head? ≠ some '"') :
    parseQuotedField (escapeQuotes v ++ '"' :: rest) = some (v, rest) := by
  induction v with
  | nil =>
      cases rest with
      | nil => rfl
      | cons c2 rest2 =>
          have hc : ¬c2 = '"' := by
            intro hcontra
            exact hrest (by simp [hcontra])
          simp [escapeQuotes, parseQuotedField, hc]
  | cons c v ih =>
      by_cases hc : c = '"'
      · subst hc
        simp [escapeQuotes, parseQuotedField, ih]
      · have he : escapeQuotes (c :: v) ++ '"' :: rest
            = c :: (escapeQuotes v ++ '"' :: rest) := by
          simp [escapeQuotes, hc]
        rw [he, parseQuotedField.eq_def]
        simp [hc, ih]

/-- Reading one field back from a rendered field followed by the rest of the
record. -/
theorem parseRawField_renderField (v rest : List Char)
    (hrest : rest.head? ≠ some '"') :
    parseRawField (renderField v ++ rest) = some (v, rest) := by
  have : renderField v ++ rest = '"' :: (escapeQuotes v ++ '"' :: rest) := by
    simp [renderField]
  rw [this, parseRawField]
  exact parseQuotedField_escapeQuotes v rest hrest

/-- Reading all fields back from a comma-joined list of rendered fields,
given enough fuel. -/
theorem parseFieldListAux_joinComma (v : List Char) (row : List (List Char))
    (fuel : Nat) (hfuel : row.length < fuel) :
    parseFieldListAux fuel (joinComma ((v :: row).map renderField))
      = some (v :: row) := by
  induction row generalizing v fuel with
  | nil =>
      obtain ⟨f, rfl⟩ : ∃ f, fuel = f + 1 := ⟨fuel - 1, by omega⟩
      have h := parseRawField_renderField v [] (by simp)
      simp only [List.append_nil] at h
      simp only [List.map_cons, List.map_nil, joinComma]
      rw [parseFieldListAux.eq_def]
      simp [h]
  | cons w ws ih =>
      obtain ⟨f, rfl⟩ : ∃ f, fuel = f + 1 := ⟨fuel - 1, by omega⟩
      have h := parseRawField_renderField v
        (',' :: joinComma ((w :: ws).map renderField)) (by simp)
      simp only [List.map_cons, joinComma]
      rw [parseFieldListAux.eq_def]
      simp only [List.map_cons] at h
      have hih := ih w f (by simp at hfuel; omega)
      simp only [List.map_cons] at hih
      simp [h, hih]

/-- A joined list of rendered fields is never the empty character list. -/
theorem joinComma_renderField_ne_nil (v : List Char) (xs : List (List Char)) :
    joinComma ((v :: xs).map renderField) ≠ [] := by
  cases xs <;> simp [joinComma, renderField]

/-- The joined rendering is at least as long as the number of fields after
the first. -/
theorem length_le_joinComma (v : List Char) (xs : List (List Char)) :
    xs.length ≤ (joinComma ((v :: xs).map renderField)).length := by
  induction xs generalizing v with
  | nil => simp
  | cons w ws ih =>
      have h := ih w
      simp only [List.map_cons, joinComma, List.length_append, List.length_cons]
        at h ⊢
      omega

/-- Mapping a character list back into a string undoes taking its data. -/
theorem map_mk_map_data (l : List String) :
    (l.map String.data).map (fun v => String.mk v) = l := by
  induction l with
  | nil => rfl
  | cons a l ih => exact congrArg (List.cons a) ih

/-- A record of body characters followed by the line break is read by
stripping the break and splitting the body into fields. -/
theorem parseCsvRecord_concat (body : List Char) (hne : body ≠ []) :
    parseCsvRecord (String.mk (body ++ ['\n']))
      = (parseFieldListAux (body.length + 1) body).map
          (fun vs => vs.map (fun v => String.mk v)) := by
  rw [parseCsvRecord]
  simp [List.getLast?_concat, List.dropLast_concat, hne]

/-- C9: a CSV row written by appendCsv — every field wrapped in double
quotes with embedded double quotes doubled — parses back to exactly the
original field values under a standard CSV reader: the write-then-parse
round trip is the identity, including for fields containing commas, double
quotes, or line breaks. -/
theorem csv_write_parse_roundtrip (row : List String) :
    parseCsvRecord (csvLine row) = some row := by
  cases row with
  | nil => rfl
  | cons v rest =>
      have hline : csvLine (v :: rest)
          = String.mk (joinComma ((v.data :: rest.map String.data).map renderField)
              ++ ['\n']) := by
        simp [csvLine, csvLineChars]
      rw [hline, parseCsvRecord_concat _ (joinComma_renderField_ne_nil _ _)]
      have hfuel : (rest.map String.data).length <
          (joinComma ((v.data :: rest.map String.data).map renderField)).length + 1 := by
        have := length_le_joinComma v.data (rest.map String.data)
        omega
      rw [parseFieldListAux_joinComma v.data (rest.map String.data) _ hfuel]
      simp only [Option.map_some']
      have hform : (v.data :: rest.map String.data)
          = ((v :: rest).map String.data) := by simp
      rw [hform, map_mk_map_data]

end PlaywrightRpa
